import Mathlib

/-!
Verification development for the PDF-BE document-conversion backend.

The Go sources are embedded shallowly: pure routing and parsing functions
become Lean functions, the HTTP handlers' control flow becomes pure functions
from an environment of collaborator outcomes (did the external tool succeed,
which files exist in the working directory, ...) to the sequence of observable
actions the handler performs (cleanups, enqueues, responses), and the worker
pool becomes a labelled transition system on pool states.
-/

namespace PDFBE

/-- The five engine worker pools owned by the EngineManager (workers package):
LibreOfficePool, PopplerPool, ImageMagickPool, PandocPool, GhostscriptPool. -/
inductive Pool
  | libreOffice
  | poppler
  | imageMagick
  | pandoc
  | ghostscript
deriving DecidableEq, Repr

/-- ASCII lowering of one character, modelling how Go strings.ToLower acts on
ASCII text (uppercase A–Z, code points 65–90, map to a–z by adding 32; other
ASCII characters are unchanged; format tokens are ASCII). -/
def charToLower (c : Char) : Char :=
  if 65 ≤ c.toNat ∧ c.toNat ≤ 90 then Char.ofNat (c.toNat + 32) else c

/-- Model of Go strings.ToLower restricted to ASCII strings. -/
def strToLower (s : String) : String :=
  String.mk (s.data.map charToLower)

/-- The routing rules of selectPool (handlers.go lines 135-164), walked in
source order on the already-lowercased format tokens. -/
def routeLower (f t : String) : Option Pool :=
  if (f = "jpg" ∨ f = "png" ∨ f = "jpeg") ∧ t = "pdf" then some .imageMagick
  else if f = "pdf" ∧ (t = "jpg" ∨ t = "png" ∨ t = "jpeg") then some .poppler
  else if (f = "docx" ∨ f = "ppt" ∨ f = "xlsx" ∨ f = "csv" ∨ f = "html") ∧ t = "pdf" then
    some .libreOffice
  else if f = "pdf" ∧ (t = "docx" ∨ t = "xlsx" ∨ t = "ppt") then some .libreOffice
  else if (f = "md" ∨ f = "markdown" ∨ f = "epub") ∧ t = "pdf" then some .pandoc
  else if (f = "txt" ∨ f = "html" ∨ f = "docx" ∨ f = "ppt" ∨ f = "xlsx" ∨ f = "csv") ∧ t = "pdf" then
    some .libreOffice
  else if f = "pdf" ∧ t = "txt" then some .poppler
  else none

/-- Embedding of ConversionHandler.selectPool (handlers.go lines 131-165):
both format tokens are lowercased first, then the rules are applied. -/
def selectPool (f t : String) : Option Pool :=
  routeLower (strToLower f) (strToLower t)

/-- Modelled from the spec: the concrete v1 routing table of section 4.3,
read row by row (image engine = ImageMagickPool, raster engine = PopplerPool,
office-suite engine = LibreOfficePool, markup engine = PandocPool); every
pair outside the table is unsupported. -/
def v1Table (f t : String) : Option Pool :=
  if (f = "jpg" ∨ f = "jpeg" ∨ f = "png") ∧ t = "pdf" then some .imageMagick
  else if f = "pdf" ∧ (t = "jpg" ∨ t = "jpeg" ∨ t = "png") then some .poppler
  else if (f = "docx" ∨ f = "ppt" ∨ f = "xlsx" ∨ f = "csv" ∨ f = "html" ∨ f = "txt") ∧ t = "pdf" then
    some .libreOffice
  else if f = "pdf" ∧ (t = "docx" ∨ t = "xlsx" ∨ t = "ppt") then some .libreOffice
  else if (f = "md" ∨ f = "markdown" ∨ f = "epub") ∧ t = "pdf" then some .pandoc
  else if f = "pdf" ∧ t = "txt" then some .poppler
  else none

set_option maxHeartbeats 1000000 in
theorem routeLower_eq_v1Table (f t : String) : routeLower f t = v1Table f t := by
  unfold routeLower v1Table
  by_cases h1 : f = "jpg"
  · subst h1; by_cases ht : t = "pdf" <;> simp [ht]
  by_cases h2 : f = "png"
  · subst h2; by_cases ht : t = "pdf" <;> simp [ht]
  by_cases h3 : f = "jpeg"
  · subst h3; by_cases ht : t = "pdf" <;> simp [ht]
  by_cases h4 : f = "pdf"
  · subst h4
    simp only [show ("pdf" : String) = "jpg" ↔ False by simp,
      show ("pdf" : String) = "png" ↔ False by simp,
      show ("pdf" : String) = "jpeg" ↔ False by simp,
      show ("pdf" : String) = "docx" ↔ False by simp,
      show ("pdf" : String) = "ppt" ↔ False by simp,
      show ("pdf" : String) = "xlsx" ↔ False by simp,
      show ("pdf" : String) = "csv" ↔ False by simp,
      show ("pdf" : String) = "html" ↔ False by simp,
      show ("pdf" : String) = "md" ↔ False by simp,
      show ("pdf" : String) = "markdown" ↔ False by simp,
      show ("pdf" : String) = "epub" ↔ False by simp,
      show ("pdf" : String) = "txt" ↔ False by simp,
      false_or, or_false, false_and, true_and, and_true, if_false, if_true,
      eq_self_iff_true]
    split_ifs <;> first | rfl | tauto
  by_cases h5 : f = "docx"
  · subst h5; by_cases ht : t = "pdf" <;> simp [ht]
  by_cases h6 : f = "ppt"
  · subst h6; by_cases ht : t = "pdf" <;> simp [ht]
  by_cases h7 : f = "xlsx"
  · subst h7; by_cases ht : t = "pdf" <;> simp [ht]
  by_cases h8 : f = "csv"
  · subst h8; by_cases ht : t = "pdf" <;> simp [ht]
  by_cases h9 : f = "html"
  · subst h9; by_cases ht : t = "pdf" <;> simp [ht]
  by_cases h10 : f = "md"
  · subst h10; by_cases ht : t = "pdf" <;> simp [ht]
  by_cases h11 : f = "markdown"
  · subst h11; by_cases ht : t = "pdf" <;> simp [ht]
  by_cases h12 : f = "epub"
  · subst h12; by_cases ht : t = "pdf" <;> simp [ht]
  by_cases h13 : f = "txt"
  · subst h13; by_cases ht : t = "pdf" <;> simp [ht]
  simp [h1, h2, h3, h4, h5, h6, h7, h8, h9, h10, h11, h12, h13]

/-- C3: for every (source, target) pair in the v1 routing table the router
returns the pool of the engine the table names, and for every pair outside
the table it returns no pool; stated as: selectPool agrees everywhere with
the spec's table applied to the lowercased tokens. -/
theorem selectPool_matches_v1_table (f t : String) :
    selectPool f t = v1Table (strToLower f) (strToLower t) := by
  unfold selectPool
  exact routeLower_eq_v1Table _ _

theorem charOfNat_toNat_of_lower (n : Nat) (h1 : 97 ≤ n) (h2 : n ≤ 122) :
    (Char.ofNat n).toNat = n := by
  interval_cases n <;> decide

theorem charToLower_idem (c : Char) : charToLower (charToLower c) = charToLower c := by
  unfold charToLower
  by_cases h : 65 ≤ c.toNat ∧ c.toNat ≤ 90
  · rw [if_pos h, if_neg]
    rw [charOfNat_toNat_of_lower (c.toNat + 32) (by omega) (by omega)]
    omega
  · rw [if_neg h, if_neg h]

theorem strToLower_idem (s : String) : strToLower (strToLower s) = strToLower s := by
  unfold strToLower
  simp only [List.map_map]
  congr 1
  apply List.map_congr_left
  intro c _
  exact charToLower_idem c

/-- C10: the router is invariant under letter case of its inputs — routing a
pair of format strings gives the same pool as routing their lowercase forms. -/
theorem selectPool_case_insensitive (f t : String) :
    selectPool f t = selectPool (strToLower f) (strToLower t) := by
  unfold selectPool
  rw [strToLower_idem, strToLower_idem]

/-- models.JobResult (models.go): Success flag, the error (Go error values
modelled as Option String), and the Path field. Path is a plain struct field
in Go, so it always carries a value; its zero value is the empty string. -/
structure JobResult where
  success : Bool
  error : Option String
  path : String
deriving DecidableEq, Repr

/-- The fields of models.Job that the pool handlers read (models.go). The
result channel is modelled by the list of results a handler sends during one
invocation. -/
structure Job where
  id : String
  inputPath : String
  fromFormat : String
  toFormat : String
  tempDir : String
deriving DecidableEq, Repr

/-- filepath.Join of a directory and one relative component. -/
def pathJoin (dir name : String) : String := dir ++ "/" ++ name

/-- Does s end with the given suffix (computed on the character lists, so
that concrete instances evaluate inside the kernel). -/
def strEndsWith (s suffix : String) : Bool := suffix.data.isSuffixOf s.data

/-- Does s start with the given prefix. -/
def strStartsWith (s pre : String) : Bool := pre.data.isPrefixOf s.data

/-- filepath.Glob over the pattern dir/*.ext: the files of the working
directory (given as basenames, in glob order) whose name ends in .ext,
joined back onto the directory. -/
def globSuffix (dir ext : String) (files : List String) : List String :=
  (files.filter fun n => strEndsWith n ("." ++ ext)).map (pathJoin dir)

/-- filepath.Glob over the pattern dir/pre*.ext: files of the working
directory whose basename starts with pre and ends in .ext. -/
def globPreSuffix (dir pre ext : String) (files : List String) : List String :=
  (files.filter fun n => strStartsWith n pre && strEndsWith n ("." ++ ext)).map (pathJoin dir)

/-- Embedding of the LibreOfficePool handler (workers package,
NewEngineManager): run LibreOfficeConvert (outcome convertErr), then on
success glob TempDir/*.ToFormat and adopt the first match, or fail when no
match exists; finally send exactly one JobResult. dirFiles lists the
basenames present in the working directory after the tool ran. -/
def libreOfficeHandler (job : Job) (convertErr : Option String)
    (dirFiles : List String) : List JobResult :=
  let outputPath := pathJoin job.tempDir ("output." ++ job.toFormat)
  let step : Option String × String :=
    match convertErr with
    | none =>
      match globSuffix job.tempDir job.toFormat dirFiles with
      | m :: _ => (none, m)
      | [] => (some ("conversion succeeded but no output file found in " ++
          job.tempDir ++ " for format " ++ job.toFormat), outputPath)
    | some e => (some e, outputPath)
  [{ success := step.1.isNone, error := step.1, path := step.2 }]

/-- converters.PDFToImage: rejects formats other than jpg/jpeg/png without
running the tool; otherwise the outcome is the tool's (toolErr). -/
def pdfToImage (toFormat : String) (toolErr : Option String) : Option String :=
  if toFormat = "jpg" ∨ toFormat = "jpeg" then toolErr
  else if toFormat = "png" then toolErr
  else some ("unsupported image format: " ++ toFormat)

/-- Embedding of the PopplerPool handler: for txt run ExtractText to
TempDir/output.txt, otherwise run PDFToImage with prefix TempDir/output and
glob TempDir/output*.ToFormat for the file pdftoppm produced (keeping the
bare prefix when nothing matches); then send exactly one JobResult. -/
def popplerHandler (job : Job) (toolErr : Option String)
    (dirFiles : List String) : List JobResult :=
  let outputPath := pathJoin job.tempDir "output"
  let step : Option String × String :=
    if job.toFormat = "txt" then
      (toolErr, outputPath ++ ".txt")
    else
      let err := pdfToImage job.toFormat toolErr
      match globPreSuffix job.tempDir "output" job.toFormat dirFiles with
      | m :: _ => (err, m)
      | [] => (err, outputPath)
  [{ success := step.1.isNone, error := step.1, path := step.2 }]

/-- Embedding of the ImageMagickPool handler: run ImageToPDF to
TempDir/output.pdf and send exactly one JobResult. -/
def imageMagickHandler (job : Job) (toolErr : Option String) : List JobResult :=
  [{ success := toolErr.isNone, error := toolErr,
     path := pathJoin job.tempDir "output.pdf" }]

/-- Embedding of the PandocPool handler: run PandocConvert to
TempDir/output.pdf and send exactly one JobResult. -/
def pandocHandler (job : Job) (toolErr : Option String) : List JobResult :=
  [{ success := toolErr.isNone, error := toolErr,
     path := pathJoin job.tempDir "output.pdf" }]

/-- Embedding of the GhostscriptPool handler: run CompressPDF to
TempDir/output.pdf and send exactly one JobResult. -/
def ghostscriptHandler (job : Job) (toolErr : Option String) : List JobResult :=
  [{ success := toolErr.isNone, error := toolErr,
     path := pathJoin job.tempDir "output.pdf" }]

/-- C2: every dequeued Job causes its pool handler to send exactly one
JobResult on the result channel, on every path of all five engine handlers —
never zero and never more than one. -/
theorem handlers_send_exactly_one_result (job : Job) (convertErr toolErr : Option String)
    (dirFiles : List String) :
    (libreOfficeHandler job convertErr dirFiles).length = 1 ∧
    (popplerHandler job toolErr dirFiles).length = 1 ∧
    (imageMagickHandler job toolErr).length = 1 ∧
    (pandocHandler job toolErr).length = 1 ∧
    (ghostscriptHandler job toolErr).length = 1 := by
  refine ⟨rfl, rfl, rfl, rfl, rfl⟩

/-- C4 counterexample: the Poppler image branch with a successful tool run
and no matching file in the working directory sends a success Result (with
the bare output prefix as path), not the failure the claim requires. -/
theorem poppler_handler_succeeds_without_artifact :
    (popplerHandler ⟨"j1", "tmp/j1/in.pdf", "pdf", "jpg", "tmp/j1"⟩ none []).map
      (fun r => r.success) = [true] := by
  decide

/-- C4 amended: the LibreOffice handler searches the working directory and
adopts the first match, failing when none exists; the Poppler image handler
also adopts the first match, but when no matching file is found it keeps the
bare output prefix and still reports the tool's own outcome (success when
the tool succeeded), instead of failing. -/
theorem output_search_amended (job : Job) (toolErr : Option String) (files : List String) :
    (globSuffix job.tempDir job.toFormat files = [] →
      (libreOfficeHandler job none files).map (fun r => r.success) = [false]) ∧
    (∀ m ms, globSuffix job.tempDir job.toFormat files = m :: ms →
      libreOfficeHandler job none files = [⟨true, none, m⟩]) ∧
    (∀ m ms, ¬ job.toFormat = "txt" →
      globPreSuffix job.tempDir "output" job.toFormat files = m :: ms →
      (popplerHandler job toolErr files).map (fun r => r.path) = [m]) ∧
    (¬ job.toFormat = "txt" →
      globPreSuffix job.tempDir "output" job.toFormat files = [] →
      (popplerHandler job toolErr files).map (fun r => r.success) =
        [(pdfToImage job.toFormat toolErr).isNone]) := by
  refine ⟨?_, ?_, ?_, ?_⟩
  · intro h
    simp [libreOfficeHandler, h]
  · intro m ms h
    simp [libreOfficeHandler, h]
  · intro m ms hne h
    simp [popplerHandler, hne, h]
  · intro hne h
    simp [popplerHandler, hne, h]

theorem output_search_amended_witness :
    ((libreOfficeHandler ⟨"a", "tmp/a/in.docx", "docx", "pdf", "tmp/a"⟩ none []).map
        (fun r => r.success) = [false]) ∧
    (libreOfficeHandler ⟨"a", "tmp/a/in.docx", "docx", "pdf", "tmp/a"⟩ none
        ["in.docx", "in.pdf"] = [⟨true, none, "tmp/a/in.pdf"⟩]) ∧
    ((popplerHandler ⟨"b", "tmp/b/in.pdf", "pdf", "jpg", "tmp/b"⟩ (some "pdftoppm failed")
        ["output-1.jpg"]).map (fun r => r.path) = ["tmp/b/output-1.jpg"]) ∧
    ((popplerHandler ⟨"b2", "tmp/b2/in.pdf", "pdf", "png", "tmp/b2"⟩ none []).map
        (fun r => r.success) = [true]) := by
  refine ⟨?_, ?_, ?_, ?_⟩
  · exact (output_search_amended ⟨"a", "tmp/a/in.docx", "docx", "pdf", "tmp/a"⟩ none []).1
      (by decide)
  · exact (output_search_amended ⟨"a", "tmp/a/in.docx", "docx", "pdf", "tmp/a"⟩ none
      ["in.docx", "in.pdf"]).2.1 "tmp/a/in.pdf" [] (by decide)
  · exact (output_search_amended ⟨"b", "tmp/b/in.pdf", "pdf", "jpg", "tmp/b"⟩
      (some "pdftoppm failed") ["output-1.jpg"]).2.2.1 "tmp/b/output-1.jpg" []
      (by decide) (by decide)
  · exact (output_search_amended ⟨"b2", "tmp/b2/in.pdf", "pdf", "png", "tmp/b2"⟩
      none []).2.2.2 (by decide) (by decide)

/-- C5 counterexample: a failing Pandoc job still carries a populated output
path (the default TempDir/output.pdf) in its failure Result, so the path is
not absent on failure. -/
theorem result_path_populated_on_failure :
    (pandocHandler ⟨"p1", "tmp/p1/in.md", "md", "pdf", "tmp/p1"⟩ (some "Pandoc failed")) =
      [⟨false, some "Pandoc failed", "tmp/p1/output.pdf"⟩] ∧
    ("tmp/p1/output.pdf" : String) ≠ "" := by
  exact ⟨rfl, by decide⟩

theorem mem_globSuffix_pathJoin {d ext m : String} {files : List String}
    (h : m ∈ globSuffix d ext files) : ∃ n, m = pathJoin d n := by
  unfold globSuffix at h
  rcases List.mem_map.mp h with ⟨n, _, rfl⟩
  exact ⟨n, rfl⟩

theorem mem_globPreSuffix_pathJoin {d pre ext m : String} {files : List String}
    (h : m ∈ globPreSuffix d pre ext files) : ∃ n, m = pathJoin d n := by
  unfold globPreSuffix at h
  rcases List.mem_map.mp h with ⟨n, _, rfl⟩
  exact ⟨n, rfl⟩

theorem pathJoin_ne_empty (d n : String) : pathJoin d n ≠ "" := by
  intro h
  have hl := congrArg String.length h
  have hslash : ("/" : String).length = 1 := rfl
  have hempty : ("" : String).length = 0 := rfl
  rw [pathJoin, String.length_append, String.length_append, hslash, hempty] at hl
  omega

/-- C5 amended: every Result a pool handler sends carries a populated (never
empty) path residing inside the Job's working directory — on success it is
the produced artifact, on failure it is the engine's default output path;
the path field is populated on failure as well, not only on success. -/
theorem result_path_in_workdir (job : Job) (convertErr toolErr : Option String)
    (files : List String) (r : JobResult)
    (h : r ∈ libreOfficeHandler job convertErr files ∨
         r ∈ popplerHandler job toolErr files ∨
         r ∈ imageMagickHandler job toolErr ∨
         r ∈ pandocHandler job toolErr ∨
         r ∈ ghostscriptHandler job toolErr) :
    (∃ rest, r.path = pathJoin job.tempDir rest) ∧ r.path ≠ "" := by
  have hmain : ∃ rest, r.path = pathJoin job.tempDir rest := by
    rcases h with h | h | h | h | h
    · unfold libreOfficeHandler at h
      rcases List.mem_singleton.mp h with rfl
      cases convertErr with
      | none =>
        cases hg : globSuffix job.tempDir job.toFormat files with
        | nil => exact ⟨"output." ++ job.toFormat, by simp [hg]⟩
        | cons m ms =>
          have hm : m ∈ globSuffix job.tempDir job.toFormat files := by
            rw [hg]; exact List.mem_cons_self m ms
          rcases mem_globSuffix_pathJoin hm with ⟨n, rfl⟩
          exact ⟨n, by simp [hg]⟩
      | some e => exact ⟨"output." ++ job.toFormat, by simp⟩
    · unfold popplerHandler at h
      rcases List.mem_singleton.mp h with rfl
      by_cases ht : job.toFormat = "txt"
      · refine ⟨"output.txt", ?_⟩
        simp only [ht, if_pos]
        show pathJoin job.tempDir "output" ++ ".txt" = pathJoin job.tempDir "output.txt"
        simp [pathJoin, String.append_assoc]
      · cases hg : globPreSuffix job.tempDir "output" job.toFormat files with
        | nil => exact ⟨"output", by simp [ht, hg]⟩
        | cons m ms =>
          have hm : m ∈ globPreSuffix job.tempDir "output" job.toFormat files := by
            rw [hg]; exact List.mem_cons_self m ms
          rcases mem_globPreSuffix_pathJoin hm with ⟨n, rfl⟩
          exact ⟨n, by simp [ht, hg]⟩
    · rcases List.mem_singleton.mp h with rfl
      exact ⟨"output.pdf", rfl⟩
    · rcases List.mem_singleton.mp h with rfl
      exact ⟨"output.pdf", rfl⟩
    · rcases List.mem_singleton.mp h with rfl
      exact ⟨"output.pdf", rfl⟩
  refine ⟨hmain, ?_⟩
  rcases hmain with ⟨rest, hr⟩
  rw [hr]
  exact pathJoin_ne_empty _ _

theorem result_path_in_workdir_witness :
    (∃ rest, (JobResult.path ⟨true, none, "tmp/w/output.pdf"⟩) = pathJoin "tmp/w" rest) ∧
    (JobResult.path ⟨true, none, "tmp/w/output.pdf"⟩) ≠ "" := by
  exact result_path_in_workdir ⟨"w", "tmp/w/in.jpg", "jpg", "pdf", "tmp/w"⟩ none none []
    ⟨true, none, "tmp/w/output.pdf"⟩ (Or.inr (Or.inr (Or.inl (by decide))))

/-- The observable actions HandleConvert performs after the working
directory exists: removing the directory (job.Cleanup / os.RemoveAll),
enqueueing the Job into a pool, writing an HTTP error status, and streaming
the artifact. -/
inductive ConvertEvent
  | cleanup
  | enqueue (p : Pool)
  | httpError (status : Nat)
  | stream
deriving DecidableEq, Repr

/-- The outcomes of the collaborator steps HandleConvert depends on: did
os.Create of the staged input succeed, did io.Copy succeed, did the engine
report a successful Result, did os.Open of the produced file succeed. -/
structure ConvertEnv where
  fromFmt : String
  toFmt : String
  createOk : Bool
  copyOk : Bool
  resultSuccess : Bool
  openOk : Bool
deriving DecidableEq, Repr

/-- Embedding of HandleConvert (handlers.go) from the point where MkdirAll
has created the request's working directory: the ordered list of observable
actions on each exit path. On os.Create or io.Copy failure the handler
returns with an error and performs no cleanup; on an unsupported pair it
cleans up and reports 400; after enqueueing, a failed Result or a failed
os.Open cleans up and reports 500; on success it streams, then cleans up. -/
def handleConvertStaged (e : ConvertEnv) : List ConvertEvent :=
  if !e.createOk then [.httpError 500]
  else if !e.copyOk then [.httpError 500]
  else
    match selectPool e.fromFmt e.toFmt with
    | none => [.cleanup, .httpError 400]
    | some p =>
      if !e.resultSuccess then [.enqueue p, .cleanup, .httpError 500]
      else if !e.openOk then [.enqueue p, .cleanup, .httpError 500]
      else [.enqueue p, .stream, .cleanup]

/-- How many times the working directory is removed on this path. -/
def cleanupCount (evs : List ConvertEvent) : Nat := evs.count .cleanup

/-- C1 counterexample: a request that has created its working directory and
then fails at the staging step (os.Create of the input file fails) returns
without any cleanup — the working directory is removed zero times, not
exactly once, and thus still exists after the handler returns. -/
theorem convert_staging_failure_skips_cleanup :
    cleanupCount (handleConvertStaged ⟨"docx", "pdf", false, true, true, true⟩) = 0 ∧
    ¬ cleanupCount (handleConvertStaged ⟨"docx", "pdf", false, true, true, true⟩) = 1 := by
  decide

/-- C1 amended: once the working directory exists, HandleConvert removes it
exactly once on every exit path that gets past staging the input file
(unsupported pair, engine failure, open failure, and success after
streaming), and never more than once; but when os.Create or io.Copy of the
staged input fails, it returns without removing the directory at all. -/
theorem convert_cleanup_exactly_once_after_staging (e : ConvertEnv) :
    cleanupCount (handleConvertStaged e) =
      (if e.createOk && e.copyOk then 1 else 0) := by
  rcases e with ⟨f, t, c1, c2, rs, op⟩
  cases c1 <;> cases c2 <;>
    simp only [handleConvertStaged, cleanupCount, Bool.not_true, Bool.not_false,
      if_true, if_false, Bool.and_self, Bool.and_true, Bool.true_and,
      Bool.and_false, Bool.false_and, cond_true, cond_false] <;>
    first
      | decide
      | (cases hp : selectPool f t <;> cases rs <;> cases op <;> simp [hp, List.count_cons])

/-- C6: a staged /convert request whose format pair the router does not
support is cleaned up exactly once, answered with client error 400 (not a
server fault), and never enqueued into any pool. -/
theorem convert_unsupported_pair_rejected (e : ConvertEnv)
    (hc : e.createOk = true) (hcp : e.copyOk = true)
    (hr : selectPool e.fromFmt e.toFmt = none) :
    handleConvertStaged e = [.cleanup, .httpError 400] ∧
    cleanupCount (handleConvertStaged e) = 1 ∧
    ∀ p : Pool, ConvertEvent.enqueue p ∉ handleConvertStaged e := by
  have hev : handleConvertStaged e = [.cleanup, .httpError 400] := by
    unfold handleConvertStaged
    rw [hc, hcp, hr]
    rfl
  refine ⟨hev, ?_, ?_⟩
  · rw [hev]; rfl
  · intro p
    rw [hev]
    simp

theorem convert_unsupported_pair_rejected_witness :
    handleConvertStaged ⟨"docx", "png", true, true, true, true⟩ =
      [.cleanup, .httpError 400] ∧
    cleanupCount (handleConvertStaged ⟨"docx", "png", true, true, true, true⟩) = 1 ∧
    ∀ p : Pool, ConvertEvent.enqueue p ∉
      handleConvertStaged ⟨"docx", "png", true, true, true, true⟩ := by
  exact convert_unsupported_pair_rejected ⟨"docx", "png", true, true, true, true⟩
    rfl rfl (by decide)

/-- One executor goroutine of a WorkerPool: blocked on the queue select,
running the handler for one Job, or exited after observing ctx.Done or a
closed queue. -/
inductive WStatus
  | idle
  | busy (j : Job)
  | stopped
deriving DecidableEq, Repr

/-- The capacity of the JobQueue channel (make(chan models.Job, 100)). -/
def queueCap : Nat := 100

/-- A WorkerPool at one instant: the Jobs buffered in its JobQueue and the
status of each of its executor goroutines. -/
structure PoolState where
  queue : List Job
  workers : List WStatus
deriving DecidableEq, Repr

/-- WorkerPool.Start with worker count n: the for loop launches exactly n
executors, all initially blocked on the select; the queue starts empty. -/
def startState (n : Nat) : PoolState := ⟨[], List.replicate n .idle⟩

/-- The atomic transitions of a running WorkerPool: a caller enqueues into
the non-full channel; an idle executor dequeues the head Job and begins
p.handler(job); a busy executor finishes its handler invocation; an idle
executor observes ctx.Done and exits. A Job is handled by one executor at a
time and an executor handles one Job at a time, as in the source loop. -/
inductive PoolStep : PoolState → PoolState → Prop
  | enqueue (s : PoolState) (j : Job) (h : s.queue.length < queueCap) :
      PoolStep s ⟨s.queue ++ [j], s.workers⟩
  | dequeue (q : List Job) (ws : List WStatus) (j : Job) (i : Nat)
      (h : ws[i]? = some .idle) :
      PoolStep ⟨j :: q, ws⟩ ⟨q, ws.set i (.busy j)⟩
  | finish (q : List Job) (ws : List WStatus) (j : Job) (i : Nat)
      (h : ws[i]? = some (.busy j)) :
      PoolStep ⟨q, ws⟩ ⟨q, ws.set i .idle⟩
  | ctxDone (q : List Job) (ws : List WStatus) (i : Nat)
      (h : ws[i]? = some .idle) :
      PoolStep ⟨q, ws⟩ ⟨q, ws.set i .stopped⟩

/-- The states a pool started with n workers can reach. -/
def PoolReachable (n : Nat) (s : PoolState) : Prop :=
  Relation.ReflTransGen PoolStep (startState n) s

/-- The number of concurrently running handler invocations. -/
def busyCount (s : PoolState) : Nat :=
  (s.workers.filter fun w => match w with | .busy _ => true | _ => false).length

theorem poolReachable_workers_length {n : Nat} {s : PoolState}
    (h : PoolReachable n s) : s.workers.length = n := by
  induction h with
  | refl => simp [startState]
  | tail _ step ih =>
    cases step <;> simpa [List.length_set] using ih

/-- C7: in a pool constructed with n workers, at no reachable instant do
more than n handler invocations run concurrently, regardless of how many
Jobs have been queued. -/
theorem pool_concurrency_bounded (n : Nat) (s : PoolState)
    (h : PoolReachable n s) : busyCount s ≤ n := by
  calc busyCount s ≤ s.workers.length := List.length_filter_le _ _
  _ = n := poolReachable_workers_length h

theorem pool_concurrency_bounded_witness :
    busyCount ⟨[], [.busy ⟨"j", "tmp/j/a.docx", "docx", "pdf", "tmp/j"⟩, .idle]⟩ ≤ 2 := by
  refine pool_concurrency_bounded 2 _ ?_
  have h1 : PoolStep (startState 2)
      ⟨[⟨"j", "tmp/j/a.docx", "docx", "pdf", "tmp/j"⟩], [.idle, .idle]⟩ := by
    have := PoolStep.enqueue (startState 2) ⟨"j", "tmp/j/a.docx", "docx", "pdf", "tmp/j"⟩
      (by simp [startState, queueCap])
    simpa [startState] using this
  have h2 : PoolStep
      ⟨[⟨"j", "tmp/j/a.docx", "docx", "pdf", "tmp/j"⟩], [.idle, .idle]⟩
      ⟨[], [.busy ⟨"j", "tmp/j/a.docx", "docx", "pdf", "tmp/j"⟩, .idle]⟩ := by
    have := PoolStep.dequeue [] [.idle, .idle]
      ⟨"j", "tmp/j/a.docx", "docx", "pdf", "tmp/j"⟩ 0 (by decide)
    simpa using this
  exact Relation.ReflTransGen.tail (Relation.ReflTransGen.tail
    Relation.ReflTransGen.refl h1) h2

/-- Decimal digits read from the front of the character list, with the value
they denote; none when no digit is present. -/
def parseDigits (cs : List Char) : Option Nat :=
  let ds := cs.takeWhile Char.isDigit
  if ds.isEmpty then none
  else some (ds.foldl (fun a c => a * 10 + (c.toNat - 48)) 0)

/-- Model of fmt.Sscanf with the %d verb: skip leading white space, read an
optional sign followed by at least one decimal digit; none means the scan
failed and the scanned Go variable keeps its zero value. -/
def sscanfInt (s : String) : Option Int :=
  let cs := s.data.dropWhile fun c => c = ' ' ∨ c = '\t' ∨ c = '\n' ∨ c = '\r'
  match cs with
  | '-' :: rest => (parseDigits rest).map (fun n => -(n : Int))
  | '+' :: rest => (parseDigits rest).map (fun n => (n : Int))
  | _ => (parseDigits cs).map (fun n => (n : Int))

/-- HandleRotate's angle computation (handlers.go): scan the angle form
value into an int that starts at zero, and replace a zero result with the
default of 90 degrees. -/
def rotateAngle (angleStr : String) : Int :=
  let angle := (sscanfInt angleStr).getD 0
  if angle = 0 then 90 else angle

/-- The observable actions of HandleRotate once the uploaded file is staged:
invoking converters.RotatePDF with the effective angle, then serving the
result or reporting a server error. -/
inductive RotateEvent
  | rotate (angle : Int)
  | httpError (status : Nat)
  | serve
deriving DecidableEq, Repr

/-- Embedding of HandleRotate (handlers.go) after the file form field was
staged: the angle value is parsed (defaulting to 90 when missing, malformed
or zero) and RotatePDF always runs — a bad angle string is never answered
with a client error. -/
def handleRotateStaged (angleStr : String) (rotateOk : Bool) : List RotateEvent :=
  let angle := rotateAngle angleStr
  if rotateOk then [.rotate angle, .serve]
  else [.rotate angle, .httpError 500]

/-- C8: when the angle form value is missing, not parseable as an integer,
or parses to 0, HandleRotate rotates with the default angle of 90 degrees
and never rejects the request as a client error. -/
theorem rotate_defaults_to_90 (angleStr : String) (rotateOk : Bool)
    (h : sscanfInt angleStr = none ∨ sscanfInt angleStr = some 0) :
    (handleRotateStaged angleStr rotateOk).head? = some (.rotate 90) ∧
    RotateEvent.httpError 400 ∉ handleRotateStaged angleStr rotateOk := by
  have hangle : rotateAngle angleStr = 90 := by
    unfold rotateAngle
    rcases h with h | h <;> rw [h] <;> rfl
  unfold handleRotateStaged
  rw [hangle]
  cases rotateOk <;> exact ⟨rfl, by decide⟩

theorem rotate_defaults_to_90_witness :
    (((handleRotateStaged "" true).head? = some (.rotate 90) ∧
       RotateEvent.httpError 400 ∉ handleRotateStaged "" true) ∧
     ((handleRotateStaged "abc" true).head? = some (.rotate 90) ∧
       RotateEvent.httpError 400 ∉ handleRotateStaged "abc" true)) ∧
    ((handleRotateStaged "0" false).head? = some (.rotate 90) ∧
      RotateEvent.httpError 400 ∉ handleRotateStaged "0" false) := by
  exact ⟨⟨rotate_defaults_to_90 "" true (Or.inl (by decide)),
    rotate_defaults_to_90 "abc" true (Or.inl (by decide))⟩,
    rotate_defaults_to_90 "0" false (Or.inr (by decide))⟩

/-- The synchronous converter invocations HandleMerge can make, bypassing
every pool: EngineManager.ImageToPDFSync (converters.ImageToPDF) and
EngineManager.MergePDFsSync (converters.MergePDFs). -/
inductive MergeCall
  | imageToPDFSync (inputs : List String) (output : String)
  | mergePDFsSync (inputs : List String) (output : String)
deriving DecidableEq, Repr

def MergeCall.inputs : MergeCall → List String
  | .imageToPDFSync ins _ => ins
  | .mergePDFsSync ins _ => ins

def MergeCall.isImageCall : MergeCall → Bool
  | .imageToPDFSync _ _ => true
  | .mergePDFsSync _ _ => false

/-- Model of filepath.Ext: the suffix of the name starting at its final dot
(dot included); empty when the name has no dot. -/
def fileExt (s : String) : String :=
  let rev := s.data.reverse
  let afterDot := rev.takeWhile fun c => !(c == '.')
  if afterDot.length = rev.length then "" else String.mk ('.' :: afterDot.reverse)

/-- The lowercased extension test of HandleMerge's staging loop. -/
def isImageExtension (e : String) : Bool :=
  e == ".jpg" || e == ".jpeg" || e == ".png"

/-- The staged copy paths input_i<ext> HandleMerge writes under the request
directory, extension lowercased, in upload order. -/
def mergeInputPaths (tempDir : String) (files : List String) : List String :=
  files.enum.map fun p =>
    pathJoin tempDir ("input_" ++ toString p.1 ++ strToLower (fileExt p.2))

/-- Embedding of HandleMerge (handlers.go) after multipart parsing: with
fewer than 2 files it reports 400 and converts nothing; otherwise it stages
every upload, marks the merge as an image merge when any upload has
extension .jpg/.jpeg/.png (case-insensitively), and calls exactly one of
the two synchronous converters with all staged inputs. The first component
lists the pool enqueues performed — there are none on any path. -/
def handleMerge (tempDir : String) (files : List String) :
    List (Pool × Job) × Option MergeCall :=
  if files.length < 2 then ([], none)
  else
    let isImageMerge := files.any fun f => isImageExtension (strToLower (fileExt f))
    let outputPath := pathJoin tempDir "merged.pdf"
    if isImageMerge then
      ([], some (.imageToPDFSync (mergeInputPaths tempDir files) outputPath))
    else
      ([], some (.mergePDFsSync (mergeInputPaths tempDir files) outputPath))

/-- C9: for a /merge request with at least two files, all staged inputs
(PDFs included) go to the synchronous image-to-PDF conversion when any
uploaded name has extension .jpg/.jpeg/.png, and otherwise all go to the
synchronous PDF merge; neither path enqueues into any worker pool. -/
theorem merge_dispatch (tempDir : String) (files : List String)
    (h : 2 ≤ files.length) :
    (handleMerge tempDir files).1 = [] ∧
    (handleMerge tempDir files).2.map MergeCall.inputs =
      some (mergeInputPaths tempDir files) ∧
    (handleMerge tempDir files).2.map MergeCall.isImageCall =
      some (files.any fun f => isImageExtension (strToLower (fileExt f))) := by
  unfold handleMerge
  rw [if_neg (by omega)]
  by_cases him : (files.any fun f => isImageExtension (strToLower (fileExt f))) = true
  · rw [if_pos him, him]
    exact ⟨rfl, rfl, rfl⟩
  · rw [if_neg him]
    rw [Bool.not_eq_true] at him
    rw [him]
    exact ⟨rfl, rfl, rfl⟩

theorem merge_dispatch_witness :
    ((handleMerge "tmp/m" ["a.pdf", "b.JPG"]).1 = [] ∧
     (handleMerge "tmp/m" ["a.pdf", "b.JPG"]).2.map MergeCall.inputs =
       some (mergeInputPaths "tmp/m" ["a.pdf", "b.JPG"]) ∧
     (handleMerge "tmp/m" ["a.pdf", "b.JPG"]).2.map MergeCall.isImageCall =
       some (["a.pdf", "b.JPG"].any fun f => isImageExtension (strToLower (fileExt f)))) ∧
    (handleMerge "tmp/m" ["a.pdf", "b.JPG"]).2.map MergeCall.isImageCall = some true := by
  refine ⟨merge_dispatch "tmp/m" ["a.pdf", "b.JPG"] (by decide), by decide⟩

end PDFBE
